import Mathlib

/-!
Shallow embedding of `file_sort.py` (repository willzjc/FileClassifier).

External effects (the generative-AI HTTP endpoint, `json.loads`, `mimetypes`,
and the filesystem) are modelled as oracle inputs; everything the repository's
own code does with those inputs is translated function by function.  The
per-file control flow of `process_and_move_files` is modelled as a pure
function that returns the list of observable actions (prints, directory
creations, renames, LLM calls) together with an optional uncaught Python
exception.
-/

set_option autoImplicit false
set_option maxHeartbeats 1600000

namespace FileSort

/-! ### Character-list utilities modelling Python string primitives -/

/-- Boolean test that `p` is a prefix of `l` (Python `str.startswith`). -/
def isPre : List Char → List Char → Bool
  | [], _ => true
  | _ :: _, [] => false
  | a :: as, b :: bs => a == b && isPre as bs

/-- Boolean substring test (Python `needle in haystack` on strings). -/
def containsSub (pat : List Char) : List Char → Bool
  | [] => pat.isEmpty
  | c :: cs => isPre pat (c :: cs) || containsSub pat cs

/-- Fuelled worker for Python `str.replace` (the fuel makes the recursion
structural; `replaceAll` always supplies enough fuel). -/
def replaceAllF (pat rep : List Char) : Nat → List Char → List Char
  | _, [] => []
  | 0, l => l
  | fuel + 1, c :: cs =>
    if pat ≠ [] ∧ isPre pat (c :: cs) = true then
      rep ++ replaceAllF pat rep fuel ((c :: cs).drop pat.length)
    else
      c :: replaceAllF pat rep fuel cs

/-- Python `str.replace`: replace every (leftmost, non-overlapping)
occurrence of `pat` by `rep`, scanning left to right. -/
def replaceAll (pat rep l : List Char) : List Char :=
  replaceAllF pat rep l.length l

/-- Python whitespace for `str.strip`. -/
def pyWs (c : Char) : Bool :=
  c == ' ' || c == '\t' || c == '\n' || c == '\r' || c == '\x0b' || c == '\x0c'

/-- Python `str.strip()` on a character list. -/
def pyStrip (l : List Char) : List Char :=
  ((l.dropWhile pyWs).reverse.dropWhile pyWs).reverse

/-- Python `str.capitalize()`: first character upper-cased, rest lower-cased. -/
def pyCapitalize : List Char → List Char
  | [] => []
  | c :: cs => c.toUpper :: cs.map Char.toLower

def strContains (s pat : String) : Bool :=
  containsSub pat.data s.data

def strStarts (s pat : String) : Bool :=
  isPre pat.data s.data

def strReplace (s pat rep : String) : String :=
  String.mk (replaceAll pat.data rep.data s.data)

def strStrip (s : String) : String :=
  String.mk (pyStrip s.data)

def strTake (s : String) (n : Nat) : String :=
  String.mk (s.data.take n)

def strCapitalize (s : String) : String :=
  String.mk (pyCapitalize s.data)

/-- Python truthiness of a string (`""` is falsy). -/
def pyTruthyStr (s : String) : Bool :=
  !(s == "")

/-- Python `x or d` for an optional string `x` (both `None` and `""` fall
through to the default). -/
def pyOrDefault (o : Option String) (d : String) : String :=
  match o with
  | some s => if s == "" then d else s
  | none => d

/-- CPython `pathlib.PurePath.suffix` on a final path component: the part
from the last dot, provided that dot is neither the first nor past the last
character. -/
def pathSuffix (name : String) : String :=
  let l := name.data
  match ((List.range l.length).filter (fun i => l.get? i == some '.')).getLast? with
  | some i => if 0 < i ∧ i < l.length - 1 then String.mk (l.drop i) else ""
  | none => ""

/-! ### JSON values and Python dynamic operations -/

/-- The JSON value universe produced by `response.json()` / `json.loads`. -/
inductive JVal where
  | null
  | bool (b : Bool)
  | num (n : Int)
  | str (s : String)
  | arr (xs : List JVal)
  | obj (fields : List (String × JVal))

/-- Python exceptions that the embedded fragments can raise. -/
inductive PyErr where
  | keyError
  | indexError
  | typeError
  | attributeError
deriving DecidableEq

/-- First binding of key `k` in a JSON object's field list. -/
def jLookup (fields : List (String × JVal)) (k : String) : Option JVal :=
  match fields with
  | [] => none
  | (k', v) :: rest => if k' == k then some v else jLookup rest k

/-- Python `j[k]` for a string key: `KeyError` when absent, `TypeError` when
`j` is not a dict. -/
def pySubscriptKey (j : JVal) (k : String) : Except PyErr JVal :=
  match j with
  | .obj fields =>
    match jLookup fields k with
    | some v => .ok v
    | none => .error .keyError
  | _ => .error .typeError

/-- Python `j[i]` for an integer index on a list. -/
def pyIndex (j : JVal) (i : Nat) : Except PyErr JVal :=
  match j with
  | .arr xs =>
    match xs.get? i with
    | some v => .ok v
    | none => .error .indexError
  | _ => .error .typeError

/-- Python `k in j` for a string `k`. -/
def pyContains (j : JVal) (k : String) : Except PyErr Bool :=
  match j with
  | .obj fields => .ok (fields.any (fun kv => kv.1 == k))
  | .arr xs => .ok (xs.any (fun v => match v with | .str s => s == k | _ => false))
  | .str s => .ok (strContains s k)
  | _ => .error .typeError

/-- Python `len(j)`. -/
def pyLen (j : JVal) : Except PyErr Nat :=
  match j with
  | .obj fields => .ok fields.length
  | .arr xs => .ok xs.length
  | .str s => .ok s.data.length
  | _ => .error .typeError

/-- Coerce a JSON value used as a path component (Python `Path / x` raises
`TypeError` for non-strings). -/
def pyExpectStr (j : JVal) : Except PyErr String :=
  match j with
  | .str s => .ok s
  | _ => .error .typeError

/-- Calling a `str` method (such as `.strip()`) on a non-string raises
`AttributeError`. -/
def pyStrAttr (j : JVal) : Except PyErr String :=
  match j with
  | .str s => .ok s
  | _ => .error .attributeError

/-! ### The program's data (from `file_sort.py`) -/

/-- `SKIP_FILES` (file_sort.py lines 13-14). -/
def SKIP_FILES : List String :=
  [".DS_Store", ".localized", "Thumbs.db", "desktop.ini", ".gitignore", ".gitkeep"]

/-- The skip test of line 159:
`any(skip_file_name in file_path.name for skip_file_name in SKIP_FILES)`. -/
def isSkipped (name : String) : Bool :=
  SKIP_FILES.any (fun junk => strContains name junk)

/-- Filesystem facts about one file, as observed by `get_file_info`:
`mimeGuess` is `mimetypes.guess_type(...)[0]` and `readResult` is the outcome
of reading the file's text (`.error msg` when `open`/`read` raises). -/
structure FileStat where
  name : String
  sizeBytes : Nat
  mimeGuess : Option String
  readResult : Except String String

/-- The dictionary built by `get_file_info` (file_sort.py lines 17-35). -/
structure FileInfo where
  name : String
  extension : String
  sizeBytes : Nat
  mimeType : String
  preview : Option String

/-- `get_file_info` (file_sort.py lines 17-35). -/
def get_file_info (st : FileStat) : FileInfo :=
  let mime : String := pyOrDefault st.mimeGuess "unknown"
  let preview : Option String :=
    if pyTruthyStr mime && strStarts mime "text/" then
      some (match st.readResult with
            | .ok content => strTake content 1000
            | .error e => "Error reading file content: " ++ e)
    else
      none
  { name := st.name, extension := pathSuffix st.name, sizeBytes := st.sizeBytes,
    mimeType := mime, preview := preview }

/-- Line 91 then lines 96-97: `.strip()` has already been applied; this is the
`.replace("```json", "").replace("```", "").replace("\n", " ")` cleanup. -/
def cleanResponse (t : String) : String :=
  strReplace (strReplace (strReplace t "```json" "") "```" "") "\n" " "

/-- The response-text extraction of `suggest_name_with_llm`
(file_sort.py lines 88-100), over the decoded response JSON. -/
def extractNameText (rd : JVal) : Except PyErr (Option String) :=
  match pyContains rd "candidates" with
  | .error e => .error e
  | .ok hasCands =>
    if hasCands then
      match pySubscriptKey rd "candidates" with
      | .error e => .error e
      | .ok cands =>
        match pyLen cands with
        | .error e => .error e
        | .ok n =>
          if 0 < n then
            match pyIndex cands 0 with
            | .error e => .error e
            | .ok c0 =>
              match pyContains c0 "content" with
              | .error e => .error e
              | .ok hasContent =>
                if hasContent then
                  match pySubscriptKey c0 "content" with
                  | .error e => .error e
                  | .ok content =>
                    match pyContains content "parts" with
                    | .error e => .error e
                    | .ok hasParts =>
                      if hasParts then
                        match pySubscriptKey content "parts" with
                        | .error e => .error e
                        | .ok parts =>
                          match pyIndex parts 0 with
                          | .error e => .error e
                          | .ok p0 =>
                            match pySubscriptKey p0 "text" with
                            | .error e => .error e
                            | .ok textV =>
                              match pyStrAttr textV with
                              | .error e => .error e
                              | .ok t => .ok (some (cleanResponse (strStrip t)))
                      else .ok none
                else .ok none
          else .ok none
    else .ok none

/-- The response-text extraction of `suggest_category_with_llm`
(file_sort.py lines 132-140): same walk, but `.strip()` then
`.capitalize()` and no code-fence cleanup. -/
def extractCategoryText (rd : JVal) : Except PyErr (Option String) :=
  match pyContains rd "candidates" with
  | .error e => .error e
  | .ok hasCands =>
    if hasCands then
      match pySubscriptKey rd "candidates" with
      | .error e => .error e
      | .ok cands =>
        match pyLen cands with
        | .error e => .error e
        | .ok n =>
          if 0 < n then
            match pyIndex cands 0 with
            | .error e => .error e
            | .ok c0 =>
              match pyContains c0 "content" with
              | .error e => .error e
              | .ok hasContent =>
                if hasContent then
                  match pySubscriptKey c0 "content" with
                  | .error e => .error e
                  | .ok content =>
                    match pyContains content "parts" with
                    | .error e => .error e
                    | .ok hasParts =>
                      if hasParts then
                        match pySubscriptKey content "parts" with
                        | .error e => .error e
                        | .ok parts =>
                          match pyIndex parts 0 with
                          | .error e => .error e
                          | .ok p0 =>
                            match pySubscriptKey p0 "text" with
                            | .error e => .error e
                            | .ok textV =>
                              match pyStrAttr textV with
                              | .error e => .error e
                              | .ok t => .ok (some (strCapitalize (strStrip t)))
                      else .ok none
                else .ok none
          else .ok none
    else .ok none

/-! ### Observable actions of the per-file loop -/

/-- The distinct messages printed by `process_and_move_files`. -/
inductive Msg where
  | skipping (name : String)
  | processing (name : String)
  | apiError
  | apiCategoryError
  | couldntGet (name : String)
  | errorProcessing (name : String)
  | invalidDir
  | moved (name : String) (dst : List String)
  | movedRenamed (name : String) (dst : List String)
  | renamed (name : String) (dst : List String)
  | wouldMoveRename (name : String) (dst : List String)
  | wouldMove (name : String) (dst : List String)
  | wouldRename (name : String) (dst : List String)
  | wouldProcess (name : String)
  | suggestedName (v : JVal)
  | suggestedFolder (v : JVal)
  | suggestedCategory (c : String)

/-- Observable effects: prints, HTTP calls to the LLM endpoint, and the two
filesystem mutations the program performs. -/
inductive Action where
  | print (m : Msg)
  | llmNameCall
  | llmCategoryCall
  | mkdir (path : List String)
  | rename (src dst : List String)

/-- `suggest_name_with_llm` (file_sort.py lines 38-103): one HTTP call; on
`RequestException` print an error and return `None`; otherwise extract the
text from the decoded response (which can itself raise). -/
def suggest_name_with_llm (net : Except Unit JVal) : List Action × Except PyErr (Option String) :=
  match net with
  | .error _ => ([.llmNameCall, .print .apiError], .ok none)
  | .ok rd => ([.llmNameCall], extractNameText rd)

/-- `suggest_category_with_llm` (file_sort.py lines 106-143). -/
def suggest_category_with_llm (net : Except Unit JVal) : List Action × Except PyErr (Option String) :=
  match net with
  | .error _ => ([.llmCategoryCall, .print .apiCategoryError], .ok none)
  | .ok rd => ([.llmCategoryCall], extractCategoryText rd)

/-- The category-folder computation of file_sort.py lines 178-185. -/
def categorizeStep (mimeType : String) (catNet : Except Unit JVal) :
    List Action × Except PyErr String :=
  if pyTruthyStr mimeType && mimeType == "application/pdf" then
    ([], .ok "Books")
  else if pyTruthyStr mimeType && strStarts mimeType "application/" then
    ([], .ok "Software")
  else
    match suggest_category_with_llm catNet with
    | (acts, .ok o) => (acts, .ok (pyOrDefault o "Uncategorized"))
    | (acts, .error e) => (acts, .error e)

/-- One directory entry together with the oracle outcomes of the external
world for it: HTTP responses, whether `mkdir`/`rename` raise `OSError`, and
whether a file already exists at the computed destination (which the code
never consults). -/
structure FileCase where
  name : String
  isFile : Bool
  sizeBytes : Nat
  mimeGuess : Option String
  readResult : Except String String
  nameNet : Except Unit JVal
  catNet : Except Unit JVal
  destExists : Bool
  mkdirFails : Bool
  renameFails : Bool

def statOf (f : FileCase) : FileStat :=
  { name := f.name, sizeBytes := f.sizeBytes, mimeGuess := f.mimeGuess,
    readResult := f.readResult }

/-- The act-or-print block of file_sort.py lines 187-219, given the already
extracted `fileName`/`folderName` JSON values and the category folder.
`OSError` from `mkdir`/`rename` is reported by the caller's handler (so it
yields an error print, not an uncaught exception); joining a non-string JSON
value onto a path raises an uncaught `TypeError`. -/
def actOn (dir : List String) (mv rn : Bool) (f : FileCase)
    (fileNameV folderNameV : JVal) (categoryFolder : String) :
    List Action × Option PyErr :=
  if mv || rn then
    if mv then
      match pyExpectStr folderNameV with
      | .error e => ([], some e)
      | .ok folderName =>
        let targetFolder := dir ++ [categoryFolder, folderName]
        if f.mkdirFails then
          ([.mkdir targetFolder, .print (.errorProcessing f.name)], none)
        else
          match (if rn then pyExpectStr fileNameV else .ok f.name) with
          | .error e => ([.mkdir targetFolder], some e)
          | .ok targetFilename =>
            let newPath := targetFolder ++ [targetFilename]
            if f.renameFails then
              ([.mkdir targetFolder, .rename (dir ++ [f.name]) newPath,
                .print (.errorProcessing f.name)], none)
            else
              ([.mkdir targetFolder, .rename (dir ++ [f.name]) newPath,
                .print (if rn then .movedRenamed f.name newPath else .moved f.name newPath)],
               none)
    else
      match pyExpectStr fileNameV with
      | .error e => ([], some e)
      | .ok fileName =>
        let newPath := dir ++ [fileName]
        if f.renameFails then
          ([.rename (dir ++ [f.name]) newPath, .print (.errorProcessing f.name)], none)
        else
          ([.rename (dir ++ [f.name]) newPath, .print (.renamed f.name newPath)], none)
  else
    if rn && mv then
      match pyExpectStr folderNameV with
      | .error e => ([], some e)
      | .ok folderName =>
        match pyExpectStr fileNameV with
        | .error e => ([], some e)
        | .ok fileName =>
          ([.print (.wouldMoveRename f.name (dir ++ [categoryFolder, folderName, fileName]))],
           none)
    else if mv then
      match pyExpectStr folderNameV with
      | .error e => ([], some e)
      | .ok folderName =>
        ([.print (.wouldMove f.name (dir ++ [categoryFolder, folderName, f.name]))], none)
    else if rn then
      match pyExpectStr fileNameV with
      | .error e => ([], some e)
      | .ok fileName =>
        ([.print (.wouldRename f.name (dir ++ [fileName]))], none)
    else
      ([.print (.wouldProcess f.name), .print (.suggestedName fileNameV),
        .print (.suggestedFolder folderNameV), .print (.suggestedCategory categoryFolder)],
       none)

/-- Everything after the `Processing file:` print for one candidate file
(file_sort.py lines 166-223): the first LLM call, the `json.loads` of the
cleaned suggestion, the `fileName`/`folderName` extraction, the category
computation and the action block.  `json.loads` failure (`jsonLoads _ = none`,
a `JSONDecodeError`) is caught by the `except` of line 220; `KeyError`,
`TypeError`, `IndexError` and `AttributeError` are not. -/
def processCandidate (jsonLoads : String → Option JVal) (dir : List String)
    (mv rn : Bool) (f : FileCase) : List Action × Option PyErr :=
  match suggest_name_with_llm f.nameNet with
  | (nacts, .error e) => (nacts, some e)
  | (nacts, .ok none) => (nacts ++ [.print (.couldntGet f.name)], none)
  | (nacts, .ok (some s)) =>
    if s == "" then (nacts ++ [.print (.couldntGet f.name)], none)
    else
      match jsonLoads s with
      | none => (nacts ++ [.print (.errorProcessing f.name)], none)
      | some data =>
        match pySubscriptKey data "fileName" with
        | .error e => (nacts, some e)
        | .ok fileNameV =>
          match pySubscriptKey data "folderName" with
          | .error e => (nacts, some e)
          | .ok folderNameV =>
            match categorizeStep (get_file_info (statOf f)).mimeType f.catNet with
            | (cacts, .error e) => (nacts ++ cacts, some e)
            | (cacts, .ok categoryFolder) =>
              match actOn dir mv rn f fileNameV folderNameV categoryFolder with
              | (aacts, e) => (nacts ++ cacts ++ aacts, e)

/-- One iteration of the `for file_path in directory.iterdir()` loop
(file_sort.py lines 157-223). -/
def processOne (jsonLoads : String → Option JVal) (dir : List String)
    (mv rn : Bool) (f : FileCase) : List Action × Option PyErr :=
  if !f.isFile then ([], none)
  else if isSkipped f.name then ([.print (.skipping f.name)], none)
  else
    match processCandidate jsonLoads dir mv rn f with
    | (acts, e) => (.print (.processing f.name) :: acts, e)

/-- The whole loop; an uncaught exception aborts the remaining files. -/
def processFiles (jsonLoads : String → Option JVal) (dir : List String)
    (mv rn : Bool) : List FileCase → List Action × Option PyErr
  | [] => ([], none)
  | f :: rest =>
    match processOne jsonLoads dir mv rn f with
    | (acts, some e) => (acts, some e)
    | (acts, none) =>
      match processFiles jsonLoads dir mv rn rest with
      | (acts2, e2) => (acts ++ acts2, e2)

/-- `process_and_move_files` (file_sort.py lines 146-223); `dirOk` is the
`directory.exists() and directory.is_dir()` oracle. -/
def process_and_move_files (jsonLoads : String → Option JVal) (dirOk : Bool)
    (dir : List String) (files : List FileCase) (mv rn : Bool) :
    List Action × Option PyErr :=
  if !dirOk then ([.print .invalidDir], none)
  else processFiles jsonLoads dir mv rn files

/-- Argument handling of `main` (file_sort.py lines 226-238): `None` models
the usage-and-exit path; otherwise the directory path and the two flags,
which scan every element of `sys.argv` for substring containment. -/
def mainModel (argv : List String) : Option (String × Bool × Bool) :=
  match argv with
  | _ :: dirPath :: _ =>
    some (dirPath,
          argv.any (fun a => strContains a "--move-files"),
          argv.any (fun a => strContains a "--rename-files"))
  | _ => none

/-! ### Interpreting action traces over an abstract filesystem -/

/-- Does an action mutate the filesystem? -/
def Action.mutatesFs : Action → Bool
  | .mkdir _ => true
  | .rename _ _ => true
  | _ => false

/-- Effect of one action on a set of existing paths. -/
def applyAct (fs : List (List String)) : Action → List (List String)
  | .mkdir p => p :: fs
  | .rename src dst => dst :: fs.filter (fun q => q != src)
  | _ => fs

def applyAll (fs : List (List String)) (acts : List Action) : List (List String) :=
  acts.foldl applyAct fs

/-- Is a rename attempted anywhere in a trace? -/
def hasRename (acts : List Action) : Bool :=
  acts.any (fun a => match a with | .rename _ _ => true | _ => false)

/-- Is `Suggested category: c` printed anywhere in a trace? -/
def hasCategoryPrint (acts : List Action) (c : String) : Bool :=
  acts.any (fun a => match a with
    | .print (.suggestedCategory c') => c' == c
    | _ => false)

/-- Number of calls to the filename-suggestion endpoint in a trace. -/
def countNameCalls (acts : List Action) : Nat :=
  (acts.filter (fun a => match a with | .llmNameCall => true | _ => false)).length

/-! ### Substring lemmas -/

theorem isPre_iff (p l : List Char) : isPre p l = true ↔ ∃ t, l = p ++ t := by
  induction p generalizing l with
  | nil => simp [isPre]
  | cons a as ih =>
    cases l with
    | nil => simp [isPre]
    | cons b bs =>
      simp only [isPre, Bool.and_eq_true, beq_iff_eq, ih, List.cons_append]
      constructor
      · rintro ⟨hab, t, ht⟩
        subst hab
        exact ⟨t, by rw [ht]⟩
      · rintro ⟨t, ht⟩
        injection ht with h1 h2
        exact ⟨h1.symm, t, h2⟩

theorem containsSub_iff (pat l : List Char) :
    containsSub pat l = true ↔ ∃ p q, l = p ++ pat ++ q := by
  induction l with
  | nil =>
    simp only [containsSub, List.isEmpty_iff]
    constructor
    · rintro rfl
      exact ⟨[], [], rfl⟩
    · rintro ⟨p, q, h⟩
      have h1 := List.append_eq_nil.mp h.symm
      exact (List.append_eq_nil.mp h1.1).2
  | cons c cs ih =>
    simp only [containsSub, Bool.or_eq_true, isPre_iff, ih]
    constructor
    · rintro (⟨t, ht⟩ | ⟨p, q, h⟩)
      · exact ⟨[], t, by simpa using ht⟩
      · exact ⟨c :: p, q, by simp [h]⟩
    · rintro ⟨p, q, h⟩
      cases p with
      | nil => exact Or.inl ⟨q, by simpa using h⟩
      | cons x xs =>
        right
        rw [List.cons_append, List.cons_append] at h
        injection h with h1 h2
        exact ⟨xs, q, h2⟩

theorem strMkAppend (a b : List Char) : String.mk a ++ String.mk b = String.mk (a ++ b) := rfl

theorem strDataAppend (a b : String) : (a ++ b).data = a.data ++ b.data := by
  cases a
  cases b
  rfl

theorem strContains_iff (s pat : String) :
    strContains s pat = true ↔ ∃ p q : String, s = p ++ pat ++ q := by
  constructor
  · intro h
    obtain ⟨p, q, hl⟩ := (containsSub_iff pat.data s.data).mp h
    refine ⟨String.mk p, String.mk q, ?_⟩
    cases s with
    | mk l =>
      cases pat with
      | mk lp =>
        rw [strMkAppend, strMkAppend]
        exact congrArg String.mk hl
  · rintro ⟨p, q, rfl⟩
    apply (containsSub_iff pat.data _).mpr
    exact ⟨p.data, q.data, by rw [strDataAppend, strDataAppend]⟩

theorem containsSub_of_isPre (p1 p2 l : List Char) (hp : isPre p1 p2 = true)
    (h : containsSub p2 l = true) : containsSub p1 l = true := by
  obtain ⟨a, b, rfl⟩ := (containsSub_iff p2 l).mp h
  obtain ⟨t, rfl⟩ := (isPre_iff p1 p2).mp hp
  apply (containsSub_iff p1 _).mpr
  exact ⟨a, t ++ b, by simp⟩

/-! ### No code fence survives the `replace` cleanup -/

/-- The backquote character (`0x60`). -/
def bt : Char := '\x60'

/-- The three-backquote code-fence pattern. -/
def tick3 : List Char := [bt, bt, bt]

theorem tickData : "```".data = tick3 := by decide

theorem replaceAllF_nil (pat rep : List Char) (n : Nat) : replaceAllF pat rep n [] = [] := by
  cases n <;> rfl

theorem replaceAllF_succ_pos (pat rep : List Char) (fuel : Nat) (c : Char) (cs : List Char)
    (hne : pat ≠ []) (h : isPre pat (c :: cs) = true) :
    replaceAllF pat rep (fuel + 1) (c :: cs) =
      rep ++ replaceAllF pat rep fuel ((c :: cs).drop pat.length) := by
  show (if pat ≠ [] ∧ isPre pat (c :: cs) = true then
          rep ++ replaceAllF pat rep fuel ((c :: cs).drop pat.length)
        else c :: replaceAllF pat rep fuel cs) = _
  rw [if_pos ⟨hne, h⟩]

theorem replaceAllF_succ_neg (pat rep : List Char) (fuel : Nat) (c : Char) (cs : List Char)
    (h : ¬(pat ≠ [] ∧ isPre pat (c :: cs) = true)) :
    replaceAllF pat rep (fuel + 1) (c :: cs) = c :: replaceAllF pat rep fuel cs := by
  show (if pat ≠ [] ∧ isPre pat (c :: cs) = true then
          rep ++ replaceAllF pat rep fuel ((c :: cs).drop pat.length)
        else c :: replaceAllF pat rep fuel cs) = _
  rw [if_neg h]

/-- The fuel does not matter as long as it dominates the list length. -/
theorem replaceAllF_irrel (pat rep : List Char) (n : Nat) :
    ∀ (m : Nat) (l : List Char), l.length ≤ n → l.length ≤ m →
      replaceAllF pat rep n l = replaceAllF pat rep m l := by
  induction n with
  | zero =>
    intro m l hn _
    have hl : l = [] := List.eq_nil_of_length_eq_zero (Nat.le_zero.mp hn)
    subst hl
    rw [replaceAllF_nil, replaceAllF_nil]
  | succ n ih =>
    intro m l hn hm
    cases l with
    | nil => rw [replaceAllF_nil, replaceAllF_nil]
    | cons c cs =>
      cases m with
      | zero => simp at hm
      | succ m =>
        simp only [List.length_cons] at hn hm
        by_cases hc : pat ≠ [] ∧ isPre pat (c :: cs) = true
        · rw [replaceAllF_succ_pos pat rep n c cs hc.1 hc.2,
              replaceAllF_succ_pos pat rep m c cs hc.1 hc.2]
          congr 1
          have hp : 0 < pat.length := List.length_pos.mpr hc.1
          apply ih
          · simp only [List.length_drop, List.length_cons]
            omega
          · simp only [List.length_drop, List.length_cons]
            omega
        · rw [replaceAllF_succ_neg pat rep n c cs hc, replaceAllF_succ_neg pat rep m c cs hc]
          congr 1
          apply ih
          · omega
          · omega

theorem replaceAll_nil (pat rep : List Char) : replaceAll pat rep [] = [] := rfl

theorem replaceAll_cons_pos (pat rep : List Char) (c : Char) (cs : List Char)
    (hne : pat ≠ []) (h : isPre pat (c :: cs) = true) :
    replaceAll pat rep (c :: cs) =
      rep ++ replaceAll pat rep ((c :: cs).drop pat.length) := by
  show replaceAllF pat rep (cs.length + 1) (c :: cs) = _
  rw [replaceAllF_succ_pos pat rep cs.length c cs hne h]
  congr 1
  apply replaceAllF_irrel
  · have hp : 0 < pat.length := List.length_pos.mpr hne
    simp only [List.length_drop, List.length_cons]
    omega
  · exact Nat.le_refl _

theorem replaceAll_cons_neg (pat rep : List Char) (c : Char) (cs : List Char)
    (h : isPre pat (c :: cs) = false) :
    replaceAll pat rep (c :: cs) = c :: replaceAll pat rep cs := by
  show replaceAllF pat rep (cs.length + 1) (c :: cs) = _
  rw [replaceAllF_succ_neg pat rep cs.length c cs (by simp [h])]
  rfl

/-- After removing every `` ``` `` occurrence, the remainder cannot even begin
with two backquotes, provided the input did not begin with two backquotes. -/
theorem repTick_head (cs : List Char) (h : isPre [bt, bt] cs = false) :
    isPre [bt, bt] (replaceAll tick3 [] cs) = false := by
  cases cs with
  | nil => simp [replaceAll_nil, isPre]
  | cons d ds =>
    by_cases hd : d = bt
    · subst hd
      have hds : isPre [bt] ds = false := by simpa [isPre] using h
      have hnp : isPre tick3 (bt :: ds) = false := by
        cases ds with
        | nil => simp [tick3, isPre]
        | cons e es =>
          have he : (bt == e) = false := by simpa [isPre] using hds
          simp [tick3, isPre, he]
      rw [replaceAll_cons_neg _ _ _ _ hnp]
      have htail : isPre [bt] (replaceAll tick3 [] ds) = false := by
        cases ds with
        | nil => simp [replaceAll_nil, isPre]
        | cons e es =>
          have he : (bt == e) = false := by simpa [isPre] using hds
          have hne : isPre tick3 (e :: es) = false := by simp [tick3, isPre, he]
          rw [replaceAll_cons_neg _ _ _ _ hne]
          simp [isPre, he]
      simp [isPre, htail]
    · have hd' : (bt == d) = false := by
        simp only [beq_eq_false_iff_ne, ne_eq]
        exact fun hh => hd hh.symm
      have hnp : isPre tick3 (d :: ds) = false := by simp [tick3, isPre, hd']
      rw [replaceAll_cons_neg _ _ _ _ hnp]
      simp [isPre, hd']

/-- Replacing every `` ``` `` by the empty string leaves a string with no
`` ``` `` occurrence: Python's left-to-right non-overlapping scan cannot
reassemble a fence. -/
theorem noTriple (l : List Char) :
    containsSub tick3 (replaceAll tick3 [] l) = false := by
  match l with
  | [] => simp [replaceAll_nil, containsSub, tick3]
  | c :: cs =>
    by_cases h : isPre tick3 (c :: cs) = true
    · obtain ⟨t, ht⟩ := (isPre_iff tick3 (c :: cs)).mp h
      rw [replaceAll_cons_pos _ _ _ _ (by simp [tick3]) h]
      have hdrop : (c :: cs).drop tick3.length = t := by
        rw [show (c :: cs) = tick3 ++ t from ht]
        simp [tick3]
      rw [hdrop]
      simpa using noTriple t
    · have hf : isPre tick3 (c :: cs) = false := by
        cases hh : isPre tick3 (c :: cs) with
        | false => rfl
        | true => exact absurd hh h
      rw [replaceAll_cons_neg _ _ _ _ hf]
      have ihcs := noTriple cs
      have hhead : isPre tick3 (c :: replaceAll tick3 [] cs) = false := by
        by_cases hc : c = bt
        · subst hc
          have h2 : isPre [bt, bt] cs = false := by simpa [tick3, isPre] using hf
          have h3 : isPre [bt, bt] (replaceAll [bt, bt, bt] [] cs) = false := by
            simpa only [tick3] using repTick_head cs h2
          simp [tick3, isPre, h3]
        · have hc' : (bt == c) = false := by
            simp only [beq_eq_false_iff_ne, ne_eq]
            exact fun hh => hc hh.symm
          simp [tick3, isPre, hc']
      simp [containsSub, hhead, ihcs]
termination_by l.length
decreasing_by
  · rw [show (c :: cs) = tick3 ++ t from ht]
    simp only [tick3, List.length_append, List.length_cons, List.length_nil]
    omega
  · simp only [List.length_cons]
    omega

theorem replaceAll_single (a b : Char) (l : List Char) :
    replaceAll [a] [b] l = l.map (fun c => if c == a then b else c) := by
  induction l with
  | nil => simp [replaceAll_nil]
  | cons c cs ih =>
    by_cases hc : c = a
    · subst hc
      have hp : isPre [c] (c :: cs) = true := by simp [isPre]
      rw [replaceAll_cons_pos _ _ _ _ (by simp) hp]
      simp [ih]
    · have hca : (a == c) = false := by
        simp only [beq_eq_false_iff_ne, ne_eq]
        exact fun hh => hc hh.symm
      have hp : isPre [a] (c :: cs) = false := by simp [isPre, hca]
      rw [replaceAll_cons_neg _ _ _ _ hp]
      have hcc : (c == a) = false := by simpa [beq_eq_false_iff_ne] using hc
      simp [ih, hcc, hc]

theorem bt_beq_subst (c : Char) :
    (bt == (if c == '\n' then ' ' else c)) = (bt == c) := by
  by_cases hc : c = '\n'
  · subst hc
    decide
  · have h1 : (c == '\n') = false := by simpa [beq_eq_false_iff_ne] using hc
    rw [h1]
    simp

theorem isPre_tick3_map (l : List Char) (h : isPre tick3 l = false) :
    isPre tick3 (l.map (fun c => if c == '\n' then ' ' else c)) = false := by
  match l with
  | [] => simp [isPre, tick3]
  | [c1] => simp [isPre, tick3]
  | [c1, c2] => simp [isPre, tick3]
  | c1 :: c2 :: c3 :: rest =>
    simp only [tick3, isPre, List.map_cons, Bool.and_eq_true] at h ⊢
    rw [bt_beq_subst c1, bt_beq_subst c2, bt_beq_subst c3]
    simpa [isPre] using h

theorem noTick_map (l : List Char) (h : containsSub tick3 l = false) :
    containsSub tick3 (l.map (fun c => if c == '\n' then ' ' else c)) = false := by
  induction l with
  | nil => simpa using h
  | cons c cs ih =>
    simp only [containsSub, Bool.or_eq_false_iff] at h
    rw [List.map_cons]
    simp only [containsSub, Bool.or_eq_false_iff]
    exact ⟨isPre_tick3_map (c :: cs) h.1, ih h.2⟩

/-- The cleanup of lines 96-97 leaves no markdown code-fence artifact. -/
theorem cleanResponse_noFence (t : String) :
    strContains (cleanResponse t) "```" = false ∧
    strContains (cleanResponse t) "```json" = false := by
  have h2 : containsSub tick3 ((strReplace (strReplace t "```json" "") "```" "").data) = false := by
    show containsSub tick3 (replaceAll "```".data "".data (strReplace t "```json" "").data) = false
    rw [tickData]
    exact noTriple _
  have h3 : containsSub tick3 ((cleanResponse t).data) = false := by
    show containsSub tick3
        (replaceAll "\n".data " ".data (strReplace (strReplace t "```json" "") "```" "").data) = false
    rw [show "\n".data = ['\n'] from rfl, show " ".data = [' '] from rfl]
    rw [replaceAll_single]
    exact noTick_map _ h2
  constructor
  · show containsSub "```".data (cleanResponse t).data = false
    rw [tickData]
    exact h3
  · show containsSub "```json".data (cleanResponse t).data = false
    cases hh : containsSub "```json".data (cleanResponse t).data with
    | false => rfl
    | true =>
      have := containsSub_of_isPre tick3 ("```json".data) _ (by decide) hh
      rw [this] at h3
      exact absurd h3 (by simp)

/-! ### Small facts about the embedded Python helpers -/

theorem pyOrDefault_ne_empty (o : Option String) (d : String) (hd : d ≠ "") :
    pyOrDefault o d ≠ "" := by
  match o with
  | none => exact hd
  | some s =>
    by_cases hs : (s == "") = true
    · simpa [pyOrDefault, hs] using hd
    · have hs' : (s == "") = false := by simpa using hs
      simp only [pyOrDefault, hs', if_false]
      simpa [beq_eq_false_iff_ne] using hs'

theorem jAny_of_lookup (fields : List (String × JVal)) (k : String) (v : JVal)
    (h : jLookup fields k = some v) : fields.any (fun kv => kv.1 == k) = true := by
  induction fields with
  | nil => simp [jLookup] at h
  | cons kv rest ih =>
    obtain ⟨k', v'⟩ := kv
    simp only [jLookup] at h
    by_cases hk : (k' == k) = true
    · simp [List.any_cons, hk]
    · have hk' : (k' == k) = false := by simpa using hk
      simp only [hk', Bool.false_eq_true, if_false] at h
      simp [List.any_cons, ih h]

/-- A well-formed LLM HTTP response whose single candidate's text is `t`. -/
def respWith (t : String) : JVal :=
  .obj [("candidates",
         .arr [.obj [("content", .obj [("parts", .arr [.obj [("text", .str t)]])])]])]

/-- Unfolded form of `get_file_info`. -/
theorem get_file_info_def (st : FileStat) :
    get_file_info st =
      { name := st.name, extension := pathSuffix st.name, sizeBytes := st.sizeBytes,
        mimeType := pyOrDefault st.mimeGuess "unknown",
        preview := if pyTruthyStr (pyOrDefault st.mimeGuess "unknown") &&
                      strStarts (pyOrDefault st.mimeGuess "unknown") "text/" then
                     some (match st.readResult with
                           | .ok content => strTake content 1000
                           | .error e => "Error reading file content: " ++ e)
                   else none } := rfl

/-! ### C7: the metadata record -/

/-- C7: for every candidate file, `get_file_info` returns a record with the
file's name, its `pathlib` extension, its byte size and its guessed MIME type
(`"unknown"` when the guess yields nothing), and the record carries a preview
exactly when the MIME type starts with `text/`; when the file's text is
readable, that preview is the first 1000 characters of the content. -/
theorem c7_file_info_record (st : FileStat) :
    ((get_file_info st).name = st.name ∧
     (get_file_info st).extension = pathSuffix st.name ∧
     (get_file_info st).sizeBytes = st.sizeBytes ∧
     (st.mimeGuess = none → (get_file_info st).mimeType = "unknown") ∧
     (∀ m, st.mimeGuess = some m → m ≠ "" → (get_file_info st).mimeType = m) ∧
     ((get_file_info st).preview.isSome = true ↔
        strStarts (get_file_info st).mimeType "text/" = true)) ∧
    ∀ content, st.readResult = .ok content →
      (get_file_info st).preview =
        (if strStarts (get_file_info st).mimeType "text/" = true
         then some (strTake content 1000) else none) := by
  have hne : pyOrDefault st.mimeGuess "unknown" ≠ "" :=
    pyOrDefault_ne_empty _ _ (by decide)
  have htruthy : pyTruthyStr (pyOrDefault st.mimeGuess "unknown") = true := by
    simp [pyTruthyStr, beq_eq_false_iff_ne.mpr hne]
  refine ⟨⟨rfl, rfl, rfl, ?_, ?_, ?_⟩, ?_⟩
  · intro h
    simp [get_file_info_def, h, pyOrDefault]
  · intro m hm hmne
    simp [get_file_info_def, hm, pyOrDefault, beq_eq_false_iff_ne.mpr hmne]
  · simp only [get_file_info_def, htruthy, Bool.true_and]
    by_cases hx : strStarts (pyOrDefault st.mimeGuess "unknown") "text/" = true
    · simp [hx]
    · have hx' : strStarts (pyOrDefault st.mimeGuess "unknown") "text/" = false := by
        rcases hv : strStarts (pyOrDefault st.mimeGuess "unknown") "text/" with _ | _
        · rfl
        · exact absurd hv hx
      simp [hx']
  · intro content hc
    by_cases hx : strStarts (pyOrDefault st.mimeGuess "unknown") "text/" = true
    · simp [get_file_info_def, htruthy, hc, hx]
    · have hx' : strStarts (pyOrDefault st.mimeGuess "unknown") "text/" = false := by
        rcases hv : strStarts (pyOrDefault st.mimeGuess "unknown") "text/" with _ | _
        · rfl
        · exact absurd hv hx
      simp [get_file_info_def, htruthy, hc, hx']

def stEx : FileStat :=
  { name := "notes.txt", sizeBytes := 11, mimeGuess := some "text/plain",
    readResult := .ok "hello world" }

/-- C7 witness: the theorem applied to a concrete readable text file. -/
theorem c7_file_info_record_witness :
    (get_file_info stEx).preview = some "hello world" ∧
    (get_file_info stEx).mimeType = "text/plain" ∧
    (get_file_info stEx).extension = ".txt" := by
  have h := c7_file_info_record stEx
  refine ⟨?_, ?_, ?_⟩
  · have hp := h.2 "hello world" rfl
    rw [hp]
    decide
  · exact h.1.2.2.2.2.1 "text/plain" rfl (by decide)
  · have he := h.1.2.1
    rw [he]
    decide

/-! ### C8: the "Uncategorized" fallback -/

/-- C8: when neither MIME heuristic fires and the second LLM call yields no
text (`None` or the empty string), the category folder is `"Uncategorized"`
(file_sort.py lines 183-185). -/
theorem c8_uncategorized_default (mimeType : String) (net : Except Unit JVal)
    (h1 : (pyTruthyStr mimeType && (mimeType == "application/pdf")) = false)
    (h2 : (pyTruthyStr mimeType && strStarts mimeType "application/") = false)
    (h : (suggest_category_with_llm net).2 = .ok none ∨
         (suggest_category_with_llm net).2 = .ok (some "")) :
    (categorizeStep mimeType net).2 = .ok "Uncategorized" := by
  rcases hs : suggest_category_with_llm net with ⟨acts, r⟩
  rw [hs] at h
  simp only [categorizeStep, h1, h2, Bool.false_eq_true, if_false, hs]
  rcases h with h | h
  · simp only at h
    subst h
    simp [pyOrDefault]
  · simp only at h
    subst h
    simp [pyOrDefault]

/-- C8 witness: a failing HTTP category call on a plain-text file. -/
theorem c8_uncategorized_default_witness :
    (categorizeStep "text/plain" (Except.error ())).2 = .ok "Uncategorized" :=
  c8_uncategorized_default "text/plain" (.error ()) (by decide) (by decide) (Or.inl rfl)

/-! ### C9: flag recognition by substring scan over argv -/

/-- C9: `--move-files` / `--rename-files` are enabled exactly when some
element of `sys.argv` (the program name and the directory path included)
contains the flag as a substring (file_sort.py lines 232-234). -/
theorem c9_flags_by_substring (argv : List String) (dirPath : String) (mv rn : Bool)
    (h : mainModel argv = some (dirPath, mv, rn)) :
    (mv = true ↔ ∃ a ∈ argv, ∃ p q : String, a = p ++ "--move-files" ++ q) ∧
    (rn = true ↔ ∃ a ∈ argv, ∃ p q : String, a = p ++ "--rename-files" ++ q) := by
  match argv with
  | [] => simp [mainModel] at h
  | [a0] => simp [mainModel] at h
  | a0 :: a1 :: rest =>
    simp only [mainModel, Option.some_inj, Prod.mk.injEq] at h
    obtain ⟨hd, hmv, hrn⟩ := h
    constructor
    · rw [← hmv]
      simp only [List.any_eq_true, strContains_iff]
    · rw [← hrn]
      simp only [List.any_eq_true, strContains_iff]

/-- C9 witness: the flag is triggered by the directory-path argument alone. -/
theorem c9_flags_by_substring_witness :
    true = true ↔ ∃ a ∈ ["file_sort.py", "/data/with--move-files"],
      ∃ p q : String, a = p ++ "--move-files" ++ q :=
  (c9_flags_by_substring ["file_sort.py", "/data/with--move-files"]
    "/data/with--move-files" true false rfl).1

/-! ### C10: empty `parts` list reaches an uncaught IndexError -/

/-- C10: when the first candidate's `content` maps `"parts"` to an empty
list, the key-presence checks of lines 88-90 (and 133-135) all pass and the
`[0]` indexing raises `IndexError`, so neither extraction returns `None`. -/
theorem c10_empty_parts_uncaught_index_error
    (fields cf ctf : List (String × JVal)) (rest : List JVal)
    (hc : jLookup fields "candidates" = some (.arr (.obj cf :: rest)))
    (hct : jLookup cf "content" = some (.obj ctf))
    (hp : jLookup ctf "parts" = some (.arr [])) :
    extractNameText (.obj fields) = .error .indexError ∧
    extractCategoryText (.obj fields) = .error .indexError := by
  have h1 := jAny_of_lookup fields "candidates" _ hc
  have h2 := jAny_of_lookup cf "content" _ hct
  have h3 := jAny_of_lookup ctf "parts" _ hp
  constructor
  · simp [extractNameText, pyContains, pySubscriptKey, pyLen, pyIndex, List.get?,
          hc, hct, hp, h1, h2, h3]
  · simp [extractCategoryText, pyContains, pySubscriptKey, pyLen, pyIndex, List.get?,
          hc, hct, hp, h1, h2, h3]

def rdEmptyParts : JVal :=
  .obj [("candidates", .arr [.obj [("content", .obj [("parts", .arr [])])]])]

/-- C10 witness: a concrete response with an empty `parts` list. -/
theorem c10_empty_parts_uncaught_index_error_witness :
    extractNameText rdEmptyParts = .error .indexError ∧
    extractCategoryText rdEmptyParts = .error .indexError :=
  c10_empty_parts_uncaught_index_error
    [("candidates", .arr [.obj [("content", .obj [("parts", .arr [])])]])]
    [("content", .obj [("parts", .arr [])])]
    [("parts", .arr [])] [] rfl rfl rfl

/-! ### C1: the scanner skips by substring containment, not by exact name -/

def fJunkish : FileCase :=
  { name := "archive.DS_Store.bak", isFile := true, sizeBytes := 0, mimeGuess := none,
    readResult := .ok "", nameNet := .error (), catNet := .error (),
    destExists := false, mkdirFails := false, renameFails := false }

/-- C1 counterexample: `archive.DS_Store.bak` is not one of the fixed junk
filenames, yet the scanner skips it, because line 159 tests substring
containment (`skip_file_name in file_path.name`), not equality. -/
theorem c1_claim_counterexample :
    processOne (fun _ => none) [] false false fJunkish
      = ([.print (.skipping "archive.DS_Store.bak")], none) ∧
    ¬ "archive.DS_Store.bak" ∈ SKIP_FILES := by
  constructor
  · rfl
  · decide

/-- C1 (amended): the loop considers only immediate children that are regular
files; among those it skips exactly the files whose name CONTAINS one of the
junk filenames as a substring, and processes every other regular file as a
candidate. -/
theorem c1_scanner_substring_skip (jl : String → Option JVal) (dir : List String)
    (mv rn : Bool) (f : FileCase) :
    (f.isFile = false → processOne jl dir mv rn f = ([], none)) ∧
    (f.isFile = true →
      ((∃ junk ∈ SKIP_FILES, ∃ p q : String, f.name = p ++ junk ++ q) →
        processOne jl dir mv rn f = ([.print (.skipping f.name)], none)) ∧
      ((¬ ∃ junk ∈ SKIP_FILES, ∃ p q : String, f.name = p ++ junk ++ q) →
        (processOne jl dir mv rn f).1.head? = some (.print (.processing f.name)))) := by
  have hskip : isSkipped f.name = true ↔
      ∃ junk ∈ SKIP_FILES, ∃ p q : String, f.name = p ++ junk ++ q := by
    simp only [isSkipped, List.any_eq_true, strContains_iff]
  refine ⟨?_, fun hf => ⟨?_, ?_⟩⟩
  · intro h
    simp [processOne, h]
  · intro hex
    have hs : isSkipped f.name = true := hskip.mpr hex
    simp [processOne, hf, hs]
  · intro hnex
    have hs : isSkipped f.name = false := by
      rcases hv : isSkipped f.name with _ | _
      · rfl
      · exact absurd (hskip.mp hv) hnex
    rcases hc : processCandidate jl dir mv rn f with ⟨acts, e⟩
    simp [processOne, hf, hs, hc]

def fThumbs : FileCase :=
  { name := "Thumbs.db", isFile := true, sizeBytes := 0, mimeGuess := none,
    readResult := .ok "", nameNet := .error (), catNet := .error (),
    destExists := false, mkdirFails := false, renameFails := false }

/-- C1 witness: a junk filename hit through the amended skip condition. -/
theorem c1_scanner_substring_skip_witness :
    processOne (fun _ => none) [] false false fThumbs
      = ([.print (.skipping "Thumbs.db")], none) :=
  ((c1_scanner_substring_skip (fun _ => none) [] false false fThumbs).2 rfl).1
    ⟨"Thumbs.db", by decide, "", "", by decide⟩

/-! ### C2: the categorizer -/

def catNetEmpty : Except Unit JVal := .ok (respWith " ")

/-- C2 counterexample: on a non-PDF, non-`application/*` file the second LLM
call can return the empty string (its extraction strips the text to `""`),
and in that case the category folder is `"Uncategorized"`, not the returned
string. -/
theorem c2_claim_counterexample :
    (suggest_category_with_llm catNetEmpty).2 = .ok (some "") ∧
    categorizeStep "text/plain" catNetEmpty = ([.llmCategoryCall], .ok "Uncategorized") ∧
    "Uncategorized" ≠ "" := by
  refine ⟨rfl, rfl, by decide⟩

theorem llmCall_mem_catActs (net : Except Unit JVal) :
    Action.llmCategoryCall ∈ (suggest_category_with_llm net).1 := by
  cases net <;> simp [suggest_category_with_llm]

/-- C2 (amended): `application/pdf` maps to `"Books"`; any other MIME type
starting with `application/` maps to `"Software"`; otherwise a second LLM
call is issued and its returned string is the category when it is nonempty
(`None`/empty fall back to `"Uncategorized"`). -/
theorem c2_categorizer (mimeType : String) (net : Except Unit JVal) :
    (mimeType = "application/pdf" → categorizeStep mimeType net = ([], .ok "Books")) ∧
    (mimeType ≠ "application/pdf" → strStarts mimeType "application/" = true →
      categorizeStep mimeType net = ([], .ok "Software")) ∧
    (strStarts mimeType "application/" = false →
      ((categorizeStep mimeType net).1 = (suggest_category_with_llm net).1 ∧
       Action.llmCategoryCall ∈ (categorizeStep mimeType net).1 ∧
       ∀ s, (suggest_category_with_llm net).2 = .ok (some s) → s ≠ "" →
         (categorizeStep mimeType net).2 = .ok s)) := by
  refine ⟨?_, ?_, ?_⟩
  · intro h
    subst h
    rfl
  · intro h1 h2
    have hb : (mimeType == "application/pdf") = false := beq_eq_false_iff_ne.mpr h1
    have hne : mimeType ≠ "" := by
      intro he
      rw [he] at h2
      simp [strStarts, isPre] at h2
    have ht : pyTruthyStr mimeType = true := by
      simp [pyTruthyStr, beq_eq_false_iff_ne.mpr hne]
    simp [categorizeStep, hb, ht, h2]
  · intro h
    have hb : (mimeType == "application/pdf") = false := by
      rcases hbe : (mimeType == "application/pdf") with _ | _
      · rfl
      · exfalso
        have heq : mimeType = "application/pdf" := by simpa using hbe
        rw [heq] at h
        exact absurd h (by decide)
    have hc1 : (pyTruthyStr mimeType && (mimeType == "application/pdf")) = false := by
      simp [hb]
    have hc2 : (pyTruthyStr mimeType && strStarts mimeType "application/") = false := by
      simp [h]
    rcases hs : suggest_category_with_llm net with ⟨acts, r⟩
    have hmem : Action.llmCategoryCall ∈ acts := by
      have hm := llmCall_mem_catActs net
      rw [hs] at hm
      exact hm
    cases r with
    | ok o =>
      refine ⟨?_, ?_, ?_⟩
      · simp [categorizeStep, hc1, hc2, hs]
      · simp only [categorizeStep, hc1, hc2, Bool.false_eq_true, if_false, hs]
        exact hmem
      · intro s hso hne
        have ho : o = some s := by simpa using hso
        subst ho
        simp [categorizeStep, hc1, hc2, hs, pyOrDefault, beq_eq_false_iff_ne.mpr hne]
    | error e =>
      refine ⟨?_, ?_, ?_⟩
      · simp [categorizeStep, hc1, hc2, hs]
      · simp only [categorizeStep, hc1, hc2, Bool.false_eq_true, if_false, hs]
        exact hmem
      · intro s hso hne
        simp at hso

def catNetNotes : Except Unit JVal := .ok (respWith " notes ")

/-- C2 witness: the PDF heuristic, and a nonempty category string passed
through from the second call. -/
theorem c2_categorizer_witness :
    categorizeStep "application/pdf" (Except.error ()) = ([], .ok "Books") ∧
    (categorizeStep "text/plain" catNetNotes).2 = .ok "Notes" := by
  refine ⟨(c2_categorizer "application/pdf" (.error ())).1 rfl, ?_⟩
  exact ((c2_categorizer "text/plain" catNetNotes).2.2 (by decide)).2.2 "Notes" rfl (by decide)

/-! ### Characterizations of the per-file loop -/

theorem processOne_eq (jl : String → Option JVal) (dir : List String) (mv rn : Bool)
    (f : FileCase) (hf : f.isFile = true) (hsk : isSkipped f.name = false) :
    processOne jl dir mv rn f =
      (.print (.processing f.name) :: (processCandidate jl dir mv rn f).1,
       (processCandidate jl dir mv rn f).2) := by
  rcases hc : processCandidate jl dir mv rn f with ⟨acts, e⟩
  simp [processOne, hf, hsk, hc]

/-- When the first LLM call succeeds with a nonempty suggestion that parses
and carries both keys, and the category computation succeeds, the candidate
processing is the name call, the category actions, then the action block. -/
theorem processCandidate_deep (jl : String → Option JVal) (dir : List String)
    (mv rn : Bool) (f : FileCase) (s : String) (data fnV fdV : JVal)
    (cacts : List Action) (cat : String)
    (hn : suggest_name_with_llm f.nameNet = ([.llmNameCall], .ok (some s)))
    (hne : s ≠ "") (hj : jl s = some data)
    (hfn : pySubscriptKey data "fileName" = .ok fnV)
    (hfd : pySubscriptKey data "folderName" = .ok fdV)
    (hcat : categorizeStep (get_file_info (statOf f)).mimeType f.catNet = (cacts, .ok cat)) :
    processCandidate jl dir mv rn f =
      ([Action.llmNameCall] ++ cacts ++ (actOn dir mv rn f fnV fdV cat).1,
       (actOn dir mv rn f fnV fdV cat).2) := by
  unfold processCandidate
  rw [hn]
  dsimp only
  have hne' : (s == "") = false := beq_eq_false_iff_ne.mpr hne
  simp only [hne', Bool.false_eq_true, if_false]
  rw [hj]
  dsimp only
  rw [hfn]
  dsimp only
  rw [hfd]
  dsimp only
  rw [hcat]

/-- The first MIME heuristic: a PDF is categorized without any LLM call. -/
theorem catStep_pdf (net : Except Unit JVal) :
    categorizeStep "application/pdf" net = ([], .ok "Books") := rfl

/-! ### C4: a run without flags only prints -/

theorem suggest_name_acts_nonmut (net : Except Unit JVal) :
    ((suggest_name_with_llm net).1).all (fun a => !a.mutatesFs) = true := by
  cases net <;> simp [suggest_name_with_llm, Action.mutatesFs]

theorem suggest_category_acts_nonmut (net : Except Unit JVal) :
    ((suggest_category_with_llm net).1).all (fun a => !a.mutatesFs) = true := by
  cases net <;> simp [suggest_category_with_llm, Action.mutatesFs]

theorem cat_step_acts_nonmut (m : String) (net : Except Unit JVal) :
    ((categorizeStep m net).1).all (fun a => !a.mutatesFs) = true := by
  unfold categorizeStep
  split
  · simp
  · split
    · simp
    · rcases hs : suggest_category_with_llm net with ⟨acts, r⟩
      have ha : acts.all (fun a => !a.mutatesFs) = true := by
        have h := suggest_category_acts_nonmut net
        rw [hs] at h
        exact h
      cases r <;> simp [ha]

theorem processCandidate_dry_nonmut (jl : String → Option JVal) (dir : List String)
    (f : FileCase) :
    ((processCandidate jl dir false false f).1).all (fun a => !a.mutatesFs) = true := by
  unfold processCandidate
  rcases hn : suggest_name_with_llm f.nameNet with ⟨nacts, r⟩
  have hna : nacts.all (fun a => !a.mutatesFs) = true := by
    have h := suggest_name_acts_nonmut f.nameNet
    rw [hn] at h
    exact h
  dsimp only
  cases r with
  | error e => simpa using hna
  | ok o =>
    cases o with
    | none =>
      dsimp only
      rw [List.all_append, hna]
      rfl
    | some s =>
      dsimp only
      by_cases hse : (s == "") = true
      · simp only [hse, if_true]
        rw [List.all_append, hna]
        rfl
      · have hse' : (s == "") = false := by simpa using hse
        simp only [hse', Bool.false_eq_true, if_false]
        rcases hj : jl s with _ | data
        · dsimp only
          rw [List.all_append, hna]
          rfl
        · dsimp only
          rcases hfn : pySubscriptKey data "fileName" with e | fnV
          · dsimp only
            exact hna
          · dsimp only
            rcases hfd : pySubscriptKey data "folderName" with e | fdV
            · dsimp only
              exact hna
            · dsimp only
              rcases hcat : categorizeStep (get_file_info (statOf f)).mimeType f.catNet
                with ⟨cacts, rc⟩
              have hca : cacts.all (fun a => !a.mutatesFs) = true := by
                have h := cat_step_acts_nonmut (get_file_info (statOf f)).mimeType f.catNet
                rw [hcat] at h
                exact h
              cases rc with
              | error e =>
                dsimp only
                rw [List.all_append, hna]
                simpa using hca
              | ok cat =>
                dsimp only
                rcases ha : actOn dir false false f fnV fdV cat with ⟨aacts, e⟩
                have haa : aacts = [.print (.wouldProcess f.name), .print (.suggestedName fnV),
                    .print (.suggestedFolder fdV), .print (.suggestedCategory cat)] := by
                  have : actOn dir false false f fnV fdV cat =
                      ([.print (.wouldProcess f.name), .print (.suggestedName fnV),
                        .print (.suggestedFolder fdV), .print (.suggestedCategory cat)], none) := rfl
                  rw [this] at ha
                  exact (Prod.mk.injEq _ _ _ _ ▸ ha).1.symm
                dsimp only
                rw [haa, List.all_append, List.all_append, hna, hca]
                rfl

theorem processOne_dry_nonmut (jl : String → Option JVal) (dir : List String)
    (f : FileCase) :
    ((processOne jl dir false false f).1).all (fun a => !a.mutatesFs) = true := by
  rcases hb : f.isFile with _ | _
  · simp [processOne, hb]
  · rcases hsk : isSkipped f.name with _ | _
    · have hpe := processOne_eq jl dir false false f hb hsk
      rcases hc : processCandidate jl dir false false f with ⟨acts, e⟩
      have h := processCandidate_dry_nonmut jl dir f
      rw [hc] at h
      rw [hpe, hc]
      dsimp only
      rw [List.all_cons]
      have h' : acts.all (fun a => !a.mutatesFs) = true := h
      rw [h']
      rfl
    · simp [processOne, hb, hsk, Action.mutatesFs]

theorem processFiles_dry_nonmut (jl : String → Option JVal) (dir : List String)
    (files : List FileCase) :
    ((processFiles jl dir false false files).1).all (fun a => !a.mutatesFs) = true := by
  induction files with
  | nil => rfl
  | cons f rest ih =>
    rcases h1 : processOne jl dir false false f with ⟨acts, e⟩
    have ha := processOne_dry_nonmut jl dir f
    rw [h1] at ha
    cases e with
    | some err => simpa [processFiles, h1] using ha
    | none =>
      rcases h2 : processFiles jl dir false false rest with ⟨acts2, e2⟩
      have ha2 := ih
      rw [h2] at ha2
      simp [processFiles, h1, h2, List.all_append, ha, ha2]

theorem applyAll_id (fs : List (List String)) (acts : List Action)
    (h : acts.all (fun a => !a.mutatesFs) = true) : applyAll fs acts = fs := by
  induction acts generalizing fs with
  | nil => rfl
  | cons a rest ih =>
    simp only [List.all_cons, Bool.and_eq_true] at h
    have ha : applyAct fs a = fs := by
      cases a <;> simp_all [applyAct, Action.mutatesFs]
    rw [applyAll, List.foldl_cons, ha]
    exact ih fs h.2

/-- C4: with neither `--move-files` nor `--rename-files`, a run emits only
prints (and LLM calls): it performs no `mkdir` and no `rename`, so applying
its trace to any filesystem state leaves that state unchanged. -/
theorem c4_dry_run_pure (jl : String → Option JVal) (dirOk : Bool) (dir : List String)
    (files : List FileCase) (fs : List (List String)) :
    ((process_and_move_files jl dirOk dir files false false).1).all
        (fun a => !a.mutatesFs) = true ∧
    applyAll fs (process_and_move_files jl dirOk dir files false false).1 = fs := by
  have hall : ((process_and_move_files jl dirOk dir files false false).1).all
      (fun a => !a.mutatesFs) = true := by
    unfold process_and_move_files
    rcases hd : dirOk with _ | _
    · simp [Action.mutatesFs]
    · simpa using processFiles_dry_nonmut jl dir files
  exact ⟨hall, applyAll_id fs _ hall⟩

/-! ### C5: per-file error handling -/

theorem processCandidate_parse_fail (jl : String → Option JVal) (dir : List String)
    (mv rn : Bool) (f : FileCase) (s : String)
    (hn : suggest_name_with_llm f.nameNet = ([.llmNameCall], .ok (some s)))
    (hne : s ≠ "") (hj : jl s = none) :
    processCandidate jl dir mv rn f =
      ([Action.llmNameCall] ++ [.print (.errorProcessing f.name)], none) := by
  unfold processCandidate
  rw [hn]
  dsimp only
  have hne' : (s == "") = false := beq_eq_false_iff_ne.mpr hne
  simp only [hne', Bool.false_eq_true, if_false]
  rw [hj]

/-- C5: an error while interpreting the suggestion (`json.loads` failure) or
while acting on the filesystem (`OSError` from `rename`) is caught by the
per-file handler of line 220: exactly one error line is printed, the loop is
not aborted, exactly one name-suggestion call was made for the file, and the
loop continues with the remaining files. -/
theorem c5_errors_caught (jl : String → Option JVal) (dir : List String) (mv rn : Bool)
    (f : FileCase) (rest : List FileCase) :
    (∀ acts, processOne jl dir mv rn f = (acts, none) →
      processFiles jl dir mv rn (f :: rest) =
        (acts ++ (processFiles jl dir mv rn rest).1, (processFiles jl dir mv rn rest).2)) ∧
    (∀ s, f.isFile = true → isSkipped f.name = false →
      suggest_name_with_llm f.nameNet = ([.llmNameCall], .ok (some s)) → s ≠ "" →
      jl s = none →
      processOne jl dir mv rn f =
        ([.print (.processing f.name), .llmNameCall, .print (.errorProcessing f.name)], none)) ∧
    (∀ s data fnV fd, f.isFile = true → isSkipped f.name = false →
      suggest_name_with_llm f.nameNet = ([.llmNameCall], .ok (some s)) → s ≠ "" →
      jl s = some data →
      pySubscriptKey data "fileName" = .ok fnV →
      pySubscriptKey data "folderName" = .ok (.str fd) →
      f.mimeGuess = some "application/pdf" →
      mv = true → rn = false → f.mkdirFails = false → f.renameFails = true →
      processOne jl dir mv rn f =
        ([.print (.processing f.name), .llmNameCall,
          .mkdir (dir ++ ["Books", fd]),
          .rename (dir ++ [f.name]) (dir ++ ["Books", fd] ++ [f.name]),
          .print (.errorProcessing f.name)], none)) := by
  refine ⟨?_, ?_, ?_⟩
  · intro acts h
    rcases hr : processFiles jl dir mv rn rest with ⟨acts2, e2⟩
    simp [processFiles, h, hr]
  · intro s hf hsk hn hne hj
    have hpe := processOne_eq jl dir mv rn f hf hsk
    rw [hpe, processCandidate_parse_fail jl dir mv rn f s hn hne hj]
    rfl
  · intro s data fnV fd hf hsk hn hne hj hfn hfd hm hmv hrn hmk hrf
    subst hmv
    subst hrn
    have hmime : (get_file_info (statOf f)).mimeType = "application/pdf" := by
      show pyOrDefault f.mimeGuess "unknown" = "application/pdf"
      rw [hm]
      rfl
    have hcat : categorizeStep (get_file_info (statOf f)).mimeType f.catNet
        = ([], .ok "Books") := by
      rw [hmime]
      exact catStep_pdf f.catNet
    have hpd := processCandidate_deep jl dir true false f s data fnV (.str fd) [] "Books"
      hn hne hj hfn hfd hcat
    have hact : actOn dir true false f fnV (.str fd) "Books" =
        ([.mkdir (dir ++ ["Books", fd]),
          .rename (dir ++ [f.name]) (dir ++ ["Books", fd] ++ [f.name]),
          .print (.errorProcessing f.name)], none) := by
      unfold actOn
      rw [hmk, hrf]
      rfl
    have hpe := processOne_eq jl dir true false f hf hsk
    rw [hpe, hpd, hact]
    rfl

def fDecode : FileCase :=
  { name := "report.bin", isFile := true, sizeBytes := 0, mimeGuess := none,
    readResult := .ok "", nameNet := .ok (respWith "X"), catNet := .error (),
    destExists := false, mkdirFails := false, renameFails := false }

/-- C5 witness: a suggestion that is not valid JSON is reported and the file
loop does not crash. -/
theorem c5_errors_caught_witness :
    processOne (fun _ => none) [] false false fDecode =
      ([.print (.processing "report.bin"), .llmNameCall,
        .print (.errorProcessing "report.bin")], none) :=
  (c5_errors_caught (fun _ => none) [] false false fDecode []).2.1 "X" rfl rfl rfl
    (by decide) rfl

/-! ### C6: rename is attempted without a destination-collision check -/

theorem processOne_move_explicit (jl : String → Option JVal) (dir : List String) (rn : Bool)
    (f : FileCase) (s : String) (data : JVal) (fn fd : String)
    (hf : f.isFile = true) (hsk : isSkipped f.name = false)
    (hn : suggest_name_with_llm f.nameNet = ([.llmNameCall], .ok (some s)))
    (hne : s ≠ "") (hj : jl s = some data)
    (hfn : pySubscriptKey data "fileName" = .ok (.str fn))
    (hfd : pySubscriptKey data "folderName" = .ok (.str fd))
    (hm : f.mimeGuess = some "application/pdf")
    (hmk : f.mkdirFails = false) (hrf : f.renameFails = false) :
    processOne jl dir true rn f =
      ([.print (.processing f.name), .llmNameCall,
        .mkdir (dir ++ ["Books", fd]),
        .rename (dir ++ [f.name]) (dir ++ ["Books", fd] ++ [if rn then fn else f.name]),
        .print (if rn
                then Msg.movedRenamed f.name (dir ++ ["Books", fd] ++ [if rn then fn else f.name])
                else Msg.moved f.name (dir ++ ["Books", fd] ++ [if rn then fn else f.name]))],
       none) := by
  have hmime : (get_file_info (statOf f)).mimeType = "application/pdf" := by
    show pyOrDefault f.mimeGuess "unknown" = "application/pdf"
    rw [hm]
    rfl
  have hcat : categorizeStep (get_file_info (statOf f)).mimeType f.catNet
      = ([], .ok "Books") := by
    rw [hmime]
    exact catStep_pdf f.catNet
  have hpd := processCandidate_deep jl dir true rn f s data (.str fn) (.str fd) [] "Books"
    hn hne hj hfn hfd hcat
  have hpe := processOne_eq jl dir true rn f hf hsk
  cases rn with
  | false =>
    have hact : actOn dir true false f (.str fn) (.str fd) "Books" =
        ([.mkdir (dir ++ ["Books", fd]),
          .rename (dir ++ [f.name]) (dir ++ ["Books", fd] ++ [f.name]),
          .print (.moved f.name (dir ++ ["Books", fd] ++ [f.name]))], none) := by
      unfold actOn
      rw [hmk, hrf]
      rfl
    rw [hpe, hpd, hact]
    rfl
  | true =>
    have hact : actOn dir true true f (.str fn) (.str fd) "Books" =
        ([.mkdir (dir ++ ["Books", fd]),
          .rename (dir ++ [f.name]) (dir ++ ["Books", fd] ++ [fn]),
          .print (.movedRenamed f.name (dir ++ ["Books", fd] ++ [fn]))], none) := by
      unfold actOn
      rw [hmk, hrf]
      rfl
    rw [hpe, hpd, hact]
    rfl

/-- C6: when a move/rename is performed, the `rename` is attempted
unconditionally — the trace contains it, and the whole per-file behaviour is
independent of whether a file already exists at the destination (the code
never reads that fact). -/
theorem c6_no_collision_check (jl : String → Option JVal) (dir : List String) (rn : Bool)
    (f : FileCase) (b : Bool) (s : String) (data : JVal) (fn fd : String)
    (hf : f.isFile = true) (hsk : isSkipped f.name = false)
    (hn : suggest_name_with_llm f.nameNet = ([.llmNameCall], .ok (some s)))
    (hne : s ≠ "") (hj : jl s = some data)
    (hfn : pySubscriptKey data "fileName" = .ok (.str fn))
    (hfd : pySubscriptKey data "folderName" = .ok (.str fd))
    (hm : f.mimeGuess = some "application/pdf")
    (hmk : f.mkdirFails = false) (hrf : f.renameFails = false) :
    hasRename (processOne jl dir true rn f).1 = true ∧
    processOne jl dir true rn { f with destExists := b } = processOne jl dir true rn f := by
  have h1 := processOne_move_explicit jl dir rn f s data fn fd
    hf hsk hn hne hj hfn hfd hm hmk hrf
  have h2 := processOne_move_explicit jl dir rn { f with destExists := b } s data fn fd
    hf hsk hn hne hj hfn hfd hm hmk hrf
  constructor
  · rw [h1]
    rfl
  · rw [h1, h2]

def dataPdf : JVal := .obj [("fileName", .str "Great Book.pdf"), ("folderName", .str "Great Book")]

def jlPdf : String → Option JVal := fun u => if u == "X" then some dataPdf else none

def fPdf : FileCase :=
  { name := "paper.pdf", isFile := true, sizeBytes := 9, mimeGuess := some "application/pdf",
    readResult := .ok "", nameNet := .ok (respWith "X"), catNet := .error (),
    destExists := true, mkdirFails := false, renameFails := false }

/-- C6 witness: the rename is attempted on a concrete file even though
`destExists` is `true`, and toggling `destExists` changes nothing. -/
theorem c6_no_collision_check_witness :
    hasRename (processOne jlPdf [] true false fPdf).1 = true ∧
    processOne jlPdf [] true false { fPdf with destExists := false } =
      processOne jlPdf [] true false fPdf :=
  c6_no_collision_check jlPdf [] false fPdf false "X" dataPdf "Great Book.pdf" "Great Book"
    rfl rfl rfl (by decide) rfl rfl rfl rfl rfl rfl

/-! ### C3: the response interpreter -/

/-- The per-file processing depends on the parsed suggestion JSON only
through its `"fileName"` and `"folderName"` fields. -/
theorem processCandidate_category_blind (dir : List String) (mv rn : Bool) (f : FileCase)
    (key : String) (data1 data2 : JVal)
    (h1 : pySubscriptKey data1 "fileName" = pySubscriptKey data2 "fileName")
    (h2 : pySubscriptKey data1 "folderName" = pySubscriptKey data2 "folderName") :
    processCandidate (fun u => if u == key then some data1 else none) dir mv rn f =
      processCandidate (fun u => if u == key then some data2 else none) dir mv rn f := by
  unfold processCandidate
  rcases hn : suggest_name_with_llm f.nameNet with ⟨nacts, r⟩
  dsimp only
  cases r with
  | error e => rfl
  | ok o =>
    cases o with
    | none => rfl
    | some t =>
      dsimp only
      by_cases ht : (t == "") = true
      · simp [ht]
      · have ht' : (t == "") = false := by simpa using ht
        simp only [ht', Bool.false_eq_true, if_false]
        by_cases hts : (t == key) = true
        · simp only [hts, if_true]
          rw [h1, h2]
        · simp only [hts, Bool.false_eq_true, if_false]

/-- C3 (amended): the interpreter's cleanup removes every markdown code-fence
artifact; the cleaned text is handed to `json.loads` and the `fileName` and
`folderName` fields of the parsed JSON become the suggested name and folder
reported for the file; the JSON's `"category"` field is never read. -/
theorem c3_response_interpreter :
    (∀ t : String,
      strContains (cleanResponse t) "```" = false ∧
      strContains (cleanResponse t) "```json" = false) ∧
    (∀ (jl : String → Option JVal) (dir : List String) (f : FileCase) (s : String)
       (data fnV fdV : JVal) (cacts : List Action) (cat : String),
      f.isFile = true → isSkipped f.name = false →
      suggest_name_with_llm f.nameNet = ([.llmNameCall], .ok (some s)) → s ≠ "" →
      jl s = some data →
      pySubscriptKey data "fileName" = .ok fnV →
      pySubscriptKey data "folderName" = .ok fdV →
      categorizeStep (get_file_info (statOf f)).mimeType f.catNet = (cacts, .ok cat) →
      processOne jl dir false false f =
        (.print (.processing f.name) :: ([Action.llmNameCall] ++ cacts ++
           [.print (.wouldProcess f.name), .print (.suggestedName fnV),
            .print (.suggestedFolder fdV), .print (.suggestedCategory cat)]), none)) ∧
    (∀ (dir : List String) (mv rn : Bool) (f : FileCase) (key : String) (data1 data2 : JVal),
      pySubscriptKey data1 "fileName" = pySubscriptKey data2 "fileName" →
      pySubscriptKey data1 "folderName" = pySubscriptKey data2 "folderName" →
      processOne (fun u => if u == key then some data1 else none) dir mv rn f =
        processOne (fun u => if u == key then some data2 else none) dir mv rn f) := by
  refine ⟨cleanResponse_noFence, ?_, ?_⟩
  · intro jl dir f s data fnV fdV cacts cat hf hsk hn hne hj hfn hfd hcat
    have hpe := processOne_eq jl dir false false f hf hsk
    have hpd := processCandidate_deep jl dir false false f s data fnV fdV cacts cat
      hn hne hj hfn hfd hcat
    have hact : actOn dir false false f fnV fdV cat =
        ([.print (.wouldProcess f.name), .print (.suggestedName fnV),
          .print (.suggestedFolder fdV), .print (.suggestedCategory cat)], none) := rfl
    rw [hpe, hpd, hact]
  · intro dir mv rn f key data1 data2 h1 h2
    have hpc := processCandidate_category_blind dir mv rn f key data1 data2 h1 h2
    unfold processOne
    rw [hpc]

def dataZ : JVal :=
  .obj [("fileName", .str "A"), ("folderName", .str "B"), ("category", .str "Zzz")]

def dataQ : JVal :=
  .obj [("fileName", .str "A"), ("folderName", .str "B"), ("category", .str "Qqq")]

def jlZ : String → Option JVal := fun u => if u == "X" then some dataZ else none

def jlQ : String → Option JVal := fun u => if u == "X" then some dataQ else none

def fC3 : FileCase :=
  { name := "story.txt", isFile := true, sizeBytes := 3, mimeGuess := some "text/plain",
    readResult := .ok "abc", nameNet := .ok (respWith "X"),
    catNet := .ok (respWith " foo "), destExists := false,
    mkdirFails := false, renameFails := false }

/-- C3 counterexample: the parsed suggestion JSON binds `"category"` to
`"Zzz"`, yet the category the program reports is `"Foo"` (from the separate
category call), and changing the JSON's `"category"` value changes nothing:
the category is never pulled out of that JSON. -/
theorem c3_claim_counterexample :
    processOne jlZ [] false false fC3 = processOne jlQ [] false false fC3 ∧
    hasCategoryPrint (processOne jlZ [] false false fC3).1 "Foo" = true ∧
    hasCategoryPrint (processOne jlZ [] false false fC3).1 "Zzz" = false := by
  refine ⟨rfl, rfl, rfl⟩

def dataW : JVal := .obj [("fileName", .str "W.txt"), ("folderName", .str "Wfold")]

def jlW : String → Option JVal := fun u => if u == "Y" then some dataW else none

def fW : FileCase :=
  { name := "draft.txt", isFile := true, sizeBytes := 1, mimeGuess := some "text/plain",
    readResult := .ok "a", nameNet := .ok (respWith "Y"),
    catNet := .ok (respWith "Essays"), destExists := false,
    mkdirFails := false, renameFails := false }

/-- C3 witness: the dry-run report on a concrete file prints the parsed
`fileName` and `folderName`. -/
theorem c3_response_interpreter_witness :
    processOne jlW [] false false fW =
      (.print (.processing "draft.txt") :: ([Action.llmNameCall] ++ [Action.llmCategoryCall] ++
         [.print (.wouldProcess "draft.txt"), .print (.suggestedName (.str "W.txt")),
          .print (.suggestedFolder (.str "Wfold")), .print (.suggestedCategory "Essays")]),
       none) :=
  c3_response_interpreter.2.1 jlW [] fW "Y" dataW (.str "W.txt") (.str "Wfold")
    [Action.llmCategoryCall] "Essays" rfl rfl rfl (by decide) rfl rfl rfl rfl
